import Mathlib

/-!
Verification of the core of `backup-photos` (src/lib.rs): the content-hash
reconciliation engine (`calculate_file_hash`, `find_files_not_in_immich`) and
the interactive disposition workflow (`sync_backup_with_immich`).

The embedding is shallow: paths are strings, the filesystem is the list of
currently-existing paths, standard input is a list of lines, and the outcomes
of `fs::copy` / `fs::remove_file` (which depend on the outside world) are
oracle streams consumed one per attempt.  The interactive loop of
`sync_backup_with_immich` becomes a step function `syncStep` (one iteration of
the Rust `while` loop) iterated by a fuelled runner `runAux`; inner loops that
block on input consume at least one stdin line per iteration, so exhaustion of
the (finite) modelled input list is reported as the `stuck` outcome, standing
for the program blocking forever on EOF.
-/

namespace BackupPhotos

/-! ## String helpers modelling the Rust `Path`/`str` operations used.
ASCII case folding models `str::to_lowercase` / `eq_ignore_ascii_case` (all
strings compared by the program - extensions, y/n answers - are ASCII). -/

abbrev Path := String

/-- Split a character list at every occurrence of `c` (model of `split`). -/
def splitOnChar (c : Char) : List Char → List (List Char)
  | [] => [[]]
  | x :: xs =>
    if x = c then [] :: splitOnChar c xs
    else
      match splitOnChar c xs with
      | [] => [[x]]
      | g :: gs => (x :: g) :: gs

/-- Model of `Path::file_name().unwrap_or_default()`: the component after the
last `/` (paths are taken in normal form, without trailing slashes). -/
def fileName (p : Path) : String :=
  String.mk ((splitOnChar '/' p.data).getLastD [])

/-- Model of `Path::parent()`: `none` for the root and the empty path,
otherwise everything before the last `/` (`some ""` for a bare file name,
as in Rust). -/
def parent? (p : Path) : Option Path :=
  if p = "" ∨ p = "/" then none
  else
    match splitOnChar '/' p.data with
    | [] => none
    | [_] => some ""
    | parts => some (String.mk (List.intercalate ['/'] parts.dropLast))

/-- Model of `Path::extension()`: the part of the file name after the final
dot; `none` when there is no dot, or when the only dot is the leading one. -/
def extension? (p : Path) : Option String :=
  match splitOnChar '.' (fileName p).data with
  | [] => none
  | [_] => none
  | [[], _] => none
  | parts => (parts.getLast?).map String.mk

/-- ASCII lower-casing of one character. -/
def lowerChar (c : Char) : Char :=
  if 'A' ≤ c ∧ c ≤ 'Z' then Char.ofNat (c.toNat + 32) else c

/-- ASCII lower-casing of a string (model of `str::to_lowercase` on the ASCII
data the program compares). -/
def strLower (s : String) : String :=
  String.mk (s.data.map lowerChar)

/-- Whitespace recognised by `str::trim` (ASCII fragment). -/
def isWS (c : Char) : Bool :=
  c = ' ' ∨ c = '\t' ∨ c = '\n' ∨ c = '\r'

/-- Model of `str::trim`. -/
def strTrim (s : String) : String :=
  String.mk (((s.data.dropWhile isWS).reverse.dropWhile isWS).reverse)

/-- Does `l` start with `pre`? (helper for the substring test). -/
def leadsWith : List Char → List Char → Bool
  | [], _ => true
  | _ :: _, [] => false
  | a :: as, b :: bs => a == b && leadsWith as bs

/-- Model of `str::contains` (substring occurrence). -/
def hasSub (needle : List Char) : List Char → Bool
  | [] => needle.isEmpty
  | x :: rest => leadsWith needle (x :: rest) || hasSub needle rest

/-- Model of `input.trim().chars().next().unwrap_or('?')` (lib.rs:870): the
command is the first character of the trimmed input line, `'?'` when the
trimmed line is empty. -/
def parseCmd (line : String) : Char :=
  (strTrim line).data.headD '?'

/-! ## Extension categories (lib.rs:504-510 and the copies of these arrays). -/

def photo_extensions : List String :=
  ["jpg", "jpeg", "png", "heic", "dng", "raw", "arw", "cr2", "nef"]

def video_extensions : List String :=
  ["mp4", "mov", "avi", "m4v", "3gp", "mkv", "webm", "flv", "wmv", "mts", "m2ts"]

/-- A path whose lower-cased extension is in the photo list (the test repeated
at lib.rs:724-734, 1166-1175). -/
def isPhoto (p : Path) : Bool :=
  match extension? p with
  | some e => photo_extensions.contains (strLower e)
  | none => false

/-- A path whose lower-cased extension is in the video list (lib.rs:737-750,
1177-1188). -/
def isVideo (p : Path) : Bool :=
  match extension? p with
  | some e => video_extensions.contains (strLower e)
  | none => false

/-! ## Content hasher (`calculate_file_hash`, lib.rs:466-495).

The SHA-256 streaming object of the `sha2` crate is modelled abstractly: its
`update` absorbs bytes one at a time into a state, and `finalize` maps the
state to the 32-byte digest.  `calculate_file_hash` opens the file (failure
modelled by `none`), then feeds the reader's chunks to the hasher in order and
hex-formats the digest with `{:x}` (two lowercase hex digits per byte). -/

/-- Abstract model of a streaming digest (the `Sha256` object): a state
absorbing one byte at a time, finalized to a 32-byte digest. -/
structure StreamHasher where
  S : Type
  init : S
  updByte : S → Nat → S
  final : S → List Nat
  final_len : ∀ s, (final s).length = 32

/-- One `hasher.update(&buffer[..bytes_read])` call: absorb a chunk. -/
def hasherUpdate (H : StreamHasher) (s : H.S) (chunk : List Nat) : H.S :=
  chunk.foldl H.updByte s

/-- Lowercase hex digit of `n % 16`. -/
def hexChar (n : Nat) : Char :=
  if n < 10 then Char.ofNat (48 + n) else Char.ofNat (87 + n)

/-- Two lowercase hex digits of a byte (the `{:x}` formatting of one byte). -/
def byteToHex (b : Nat) : List Char :=
  [hexChar (b / 16 % 16), hexChar (b % 16)]

/-- The `format!("{:x}", hash)` rendering of a digest. -/
def hexString (bytes : List Nat) : String :=
  String.mk (bytes.map byteToHex).flatten

/-- Model of `calculate_file_hash` (lib.rs:466-495).  `chunks?` is what the
reader produced: `none` if opening/reading failed, otherwise the successive
non-empty chunks returned by `reader.read` (each at most 1 MiB), whose
concatenation is the file's byte stream.  Each chunk is absorbed in order and
the digest is hex-formatted. -/
def calculate_file_hash (H : StreamHasher) (chunks? : Option (List (List Nat))) :
    Option String :=
  match chunks? with
  | none => none
  | some chunks => some (hexString (H.final (chunks.foldl (hasherUpdate H) H.init)))

/-! ## Reconciliation (`find_files_not_in_immich`, lib.rs:498-636).

The walks themselves are external (`WalkDir`); the engine is parametrised by
the walk-ordered file lists and by the hash oracle `hash : Path → Option
String` (`none` = `calculate_file_hash` failed). -/

/-- Building the `immich_hashes` set (lib.rs:568-578): hash every reference
file, keep the successful hashes, skip failures.  The Rust `HashSet` is
modelled as a list queried with `contains`. -/
def build_immich_hashes (hash : Path → Option String) : List Path → List String
  | [] => []
  | f :: rest =>
    match hash f with
    | some h => h :: build_immich_hashes hash rest
    | none => build_immich_hashes hash rest

/-- The comparison loop of `find_files_not_in_immich` (lib.rs:597-616): walk
the backup files in order; a file whose hash succeeds and is contained in the
reference set is dropped, otherwise (absent hash, or hash failure) it is
pushed onto the missing list. -/
def find_files_not_in_immich (hash : Path → Option String)
    (immich_hashes : List String) : List Path → List Path
  | [] => []
  | f :: rest =>
    match hash f with
    | some h =>
      if immich_hashes.contains h then find_files_not_in_immich hash immich_hashes rest
      else f :: find_files_not_in_immich hash immich_hashes rest
    | none => f :: find_files_not_in_immich hash immich_hashes rest

/-- The classification predicate implicit in the loop above: missing iff the
hash failed or is absent from the reference set. -/
def isMissing (hash : Path → Option String) (immich_hashes : List String)
    (f : Path) : Bool :=
  match hash f with
  | some h => !(immich_hashes.contains h)
  | none => true

/-! ## The pre-loop filter of `sync_backup_with_immich` (lib.rs:714-773):
`files_not_in_immich.retain(...)` by media type or filename pattern, applied
to the reconciliation result before the interactive loop starts. -/

/-- The three `retain` calls (lib.rs:724-767); `choice` is the trimmed answer
line, `pat` the trimmed lower-cased pattern for choice `"3"`. -/
def preFilter (choice : String) (pat : String) (files : List Path) : List Path :=
  match choice with
  | "1" => files.filter isPhoto
  | "2" => files.filter isVideo
  | "3" => files.filter (fun p => hasSub pat.data (strLower (fileName p)).data)
  | _ => files

/-! ## The interactive disposition session (`sync_backup_with_immich`,
lib.rs:807-1333).

State of the `while i < files_not_in_immich.len()` loop: the queue
`files_not_in_immich`, the cursor `i`, the persistent `all_action` override,
the trash directory path, and the filesystem (the list of currently-existing
paths: the not-yet-deleted originals together with the trash entries, queried
by `destination.exists()`, `fs::metadata` and the final summary).

Environment: the stdin lines, and oracle streams giving the outcome of each
successive `fs::copy` and `fs::remove_file` call and the string produced by
each successive `chrono::Local::now()` call. -/

/-- Observable filesystem/terminal events of one run. -/
inductive Ev where
  | copyEv (src dst : String) (ok : Bool)
  | delEv (src : String) (ok : Bool)
  | warnEv
  | quitReport (processed total : Nat)
deriving Repr, DecidableEq

/-- Loop state of `sync_backup_with_immich`. -/
structure St where
  files : List Path
  i : Nat
  allAction : Option Char
  fs : List Path
  trashDir : Path
deriving Repr, DecidableEq

/-- External world: stdin lines and outcome oracles, consumed in order. -/
structure Env where
  inputs : List String
  copyOk : List Bool
  delOk : List Bool
  nows : List String
deriving Repr, DecidableEq

/-- One `read_line` (EOF = `none`; the program would then spin on empty
input forever, which the runner reports as `stuck`). -/
def popInput (e : Env) : Option (String × Env) :=
  match e.inputs with
  | [] => none
  | l :: ls => some (l, { e with inputs := ls })

/-- Outcome of the next `fs::copy` call (defaults to success past the
provided oracle). -/
def popCopy (e : Env) : Bool × Env :=
  match e.copyOk with
  | [] => (true, e)
  | b :: bs => (b, { e with copyOk := bs })

/-- Outcome of the next `fs::remove_file` call. -/
def popDel (e : Env) : Bool × Env :=
  match e.delOk with
  | [] => (true, e)
  | b :: bs => (b, { e with delOk := bs })

/-- The next `chrono::Local::now()` timestamp string. -/
def popNow (e : Env) : String × Env :=
  match e.nows with
  | [] => ("", e)
  | t :: ts => (t, { e with nows := ts })

/-- The collision loop choosing a trash destination (lib.rs:875-885, repeated
at 822-831, 1101-1112, 1234-1245): starting from `trashDir/name` and
`counter = 1`, while the destination exists replace it by
`trashDir/(name-timestamp-counter)` with a fresh timestamp and the
incremented counter.  `fuel` bounds the iterations of the `while` (the real
loop stops as soon as a name is unused; `none` = fuel exhausted). -/
def chooseDestAux (ex : String → Bool) (trashDir name : String) :
    Nat → Nat → String → Env → Option (String × Env)
  | 0, _, _, _ => none
  | fuel + 1, counter, dest, env =>
    if ex dest then
      chooseDestAux ex trashDir name fuel (counter + 1)
        (trashDir ++ "/" ++ (name ++ "-" ++ (popNow env).1 ++ "-" ++ toString counter))
        (popNow env).2
    else some (dest, env)

/-- Entry point of the collision loop: first candidate `trashDir/name`,
counter starting at 1. -/
def chooseDest (ex : String → Bool) (trashDir name : String) (env : Env)
    (fuel : Nat) : Option (String × Env) :=
  chooseDestAux ex trashDir name fuel 1 (trashDir ++ "/" ++ name) env

/-- Result of one trash relocation attempt. -/
structure TrashRes where
  st : St
  env : Env
  evs : List Ev
  copied : Bool
deriving Repr, DecidableEq

/-- One trash relocation (the block repeated at lib.rs:820-845, 873-911,
1095-1124, 1228-1257 minus the interactive retry prompt): choose a fresh
destination, `fs::copy(file, destination)`, and only in the `Ok` arm
`fs::remove_file(file)`; a failed copy leaves the original untouched,
a failed delete leaves the file present in both places. -/
def trashOne (st : St) (env : Env) (file : Path) : Option TrashRes :=
  match chooseDest (fun d => st.fs.contains d) st.trashDir (fileName file) env
      (st.fs.length + 2) with
  | none => none
  | some de =>
    let c := popCopy de.2
    if c.1 then
      let d := popDel c.2
      some ⟨{ st with fs := if d.1 then (de.1 :: st.fs).erase file else de.1 :: st.fs },
            d.2, [Ev.copyEv file de.1 true, Ev.delEv file d.1], true⟩
    else
      some ⟨st, c.2, [Ev.copyEv file de.1 false], false⟩

/-- The batch (lib.rs:1095-1124) and filter (1230-1257) bulk-trash loops:
relocate the files at the given indices one after the other (the callers pass
the selected indices in reverse order, as `iter().rev()` does). -/
def trashMany (idxs : List Nat) (st : St) (env : Env) :
    Option (St × Env × List Ev) :=
  match idxs with
  | [] => some (st, env, [])
  | idx :: rest =>
    match trashOne st env (st.files.getD idx "") with
    | none => none
    | some r =>
      match trashMany rest r.st r.env with
      | none => none
      | some t => some (t.1, t.2.1, r.evs ++ t.2.2)

/-- Result of the batch-selection inner loop. -/
inductive BatchRes where
  | ok (selected : List Nat) (env : Env)
  | fatal
  | exhausted
deriving Repr, DecidableEq

/-- The batch-selection inner loop (lib.rs:999-1073): starting at the cursor,
each remaining file is selected (`y`), skipped (`n`), inspected (`v`, with a
`fs::metadata(..)?` whose failure aborts the whole function), has its
directory opened (`d`), or the loop is aborted (`q`); anything else warns and
repeats.  Every iteration consumes at least one stdin line, so the fuel
`inputs.length + 1` used by the caller never runs out before EOF. -/
def batchSelect (st : St) : Nat → Nat → List Nat → Env → BatchRes
  | 0, _, _, _ => .exhausted
  | fuel + 1, batchIdx, selected, env =>
    if batchIdx < st.files.length then
      match popInput env with
      | none => .exhausted
      | some le =>
        match parseCmd le.1 with
        | 'y' => batchSelect st fuel (batchIdx + 1) (selected ++ [batchIdx]) le.2
        | 'n' => batchSelect st fuel (batchIdx + 1) selected le.2
        | 'v' =>
          if st.fs.contains (st.files.getD batchIdx "") then
            match popInput le.2 with
            | none => .exhausted
            | some ve =>
              if strLower (strTrim ve.1) = "y" then
                match popInput ve.2 with
                | none => .exhausted
                | some pe => batchSelect st fuel batchIdx selected pe.2
              else batchSelect st fuel batchIdx selected ve.2
          else .fatal
        | 'd' =>
          match parent? (st.files.getD batchIdx "") with
          | some _ =>
            match popInput le.2 with
            | none => .exhausted
            | some pe => batchSelect st fuel batchIdx selected pe.2
          | none => batchSelect st fuel batchIdx selected le.2
        | 'q' => .ok selected le.2
        | _ => batchSelect st fuel batchIdx selected le.2
    else .ok selected env

/-- The filter scan (lib.rs:1162-1212): for every index from the cursor to the
end of the queue, test the chosen predicate and collect the matching indices
in ascending order.  For choice `"3"` the pattern prompt sits inside the
per-index loop, so one pattern line is read per index (exactly as the code
does); `none` = stdin exhausted during those reads. -/
def filterScan (files : List Path) (choice : String) :
    List Nat → Env → Option (List Nat × Env)
  | [], env => some ([], env)
  | idx :: rest, env =>
    let f := files.getD idx ""
    match choice with
    | "1" =>
      (filterScan files choice rest env).map
        (fun r => (if isPhoto f then idx :: r.1 else r.1, r.2))
    | "2" =>
      (filterScan files choice rest env).map
        (fun r => (if isVideo f then idx :: r.1 else r.1, r.2))
    | "3" =>
      match popInput env with
      | none => none
      | some pe =>
        (filterScan files choice rest pe.2).map
          (fun r =>
            (if hasSub (strLower (strTrim pe.1)).data (strLower (fileName f)).data
             then idx :: r.1 else r.1, r.2))
    | _ => filterScan files choice rest env

/-- Terminal outcome of the session. -/
inductive Outcome where
  | done (trashed kept : Nat)
  | quit (processed total : Nat)
  | fatal
  | stuck
deriving Repr, DecidableEq

/-- The end-of-function summary (lib.rs:1313-1330): re-test the existence of
every original record; a missing original counts as trashed, a still-existing
one as kept. -/
def summarize (st : St) : Outcome :=
  let counts := st.files.foldl
    (fun (tk : Nat × Nat) f =>
      if st.fs.contains f then (tk.1, tk.2 + 1) else (tk.1 + 1, tk.2))
    (0, 0)
  .done counts.1 counts.2

/-- Result of one iteration of the main loop. -/
inductive StepRes where
  | cont (st : St) (env : Env) (evs : List Ev)
  | halt (out : Outcome) (evs : List Ev)
deriving Repr, DecidableEq

/-- The override block (lib.rs:818-857): when `all_action` is set the current
file is trashed or kept without prompting and the cursor advances; an
invalid stored action breaks out of the loop into the summary.  Note that on
`'t'` the cursor advances whether or not the copy succeeded. -/
def stepOverride (st : St) (env : Env) (a : Char) (file : Path) : StepRes :=
  match a with
  | 't' =>
    match trashOne st env file with
    | none => .halt .stuck []
    | some r => .cont { r.st with i := st.i + 1 } r.env r.evs
  | 'k' => .cont { st with i := st.i + 1 } env []
  | _ => .halt (summarize st) [Ev.warnEv]

/-- The interactive `'t'` branch (lib.rs:873-911): trash the file; on copy
success the cursor advances (even if the delete then failed); on copy failure
the user is asked `Try again? [Y/n]` - any answer other than `n` keeps the
cursor on the file (`continue`), answering `n` falls through to `i += 1`. -/
def stepTrashCmd (st : St) (env1 : Env) (file : Path) : StepRes :=
  match trashOne st env1 file with
  | none => .halt .stuck []
  | some r =>
    if r.copied then .cont { r.st with i := st.i + 1 } r.env r.evs
    else
      match popInput r.env with
      | none => .halt .stuck r.evs
      | some ae =>
        if strLower (strTrim ae.1) = "n" then .cont { r.st with i := st.i + 1 } ae.2 r.evs
        else .cont r.st ae.2 r.evs

/-- The `'v'` branch (lib.rs:917-972): `fs::metadata(file)?` aborts the whole
function if the file does not exist; otherwise the view prompt consumes a
line (and, on `y`, an external open plus a press-enter line) and the cursor
stays. -/
def stepViewCmd (st : St) (env1 : Env) (file : Path) : StepRes :=
  if st.fs.contains file then
    match popInput env1 with
    | none => .halt .stuck []
    | some ae =>
      if strLower (strTrim ae.1) = "y" then
        match popInput ae.2 with
        | none => .halt .stuck []
        | some pe => .cont st pe.2 []
      else .cont st ae.2 []
  else .halt .fatal []

/-- The `'d'` branch (lib.rs:973-989): open the parent directory and wait for
enter; warn when there is no parent; the cursor stays. -/
def stepDirCmd (st : St) (env1 : Env) (file : Path) : StepRes :=
  match parent? file with
  | some _ =>
    match popInput env1 with
    | none => .halt .stuck []
    | some pe => .cont st pe.2 []
  | none => .cont st env1 [Ev.warnEv]

/-- The `'s'` branch (lib.rs:990-1150): run the batch-selection loop over the
tail; on a non-empty selection ask for one bulk action.  Bulk `'t'` trashes
the selected indices in reverse order and advances the cursor by one exactly
when the current position was selected; bulk `'k'` sets the cursor to
`start_idx + 1`; an invalid bulk action warns and leaves the cursor; an empty
selection leaves the cursor. -/
def stepBatchCmd (st : St) (env1 : Env) : StepRes :=
  match batchSelect st (env1.inputs.length + 1) st.i [] env1 with
  | .fatal => .halt .fatal []
  | .exhausted => .halt .stuck []
  | .ok selected env2 =>
    if selected.isEmpty then .cont st env2 []
    else
      match popInput env2 with
      | none => .halt .stuck []
      | some ae =>
        match parseCmd ae.1 with
        | 't' =>
          match trashMany selected.reverse st ae.2 with
          | none => .halt .stuck []
          | some t =>
            .cont { t.1 with i := if selected.contains st.i then st.i + 1 else st.i }
              t.2.1 t.2.2
        | 'k' => .cont { st with i := st.i + 1 } ae.2 []
        | _ => .cont st ae.2 [Ev.warnEv]

/-- The `'f'` branch (lib.rs:1152-1275): read the filter choice, scan the tail
for matching indices, and on a non-empty match ask for one bulk action.
Bulk `'t'` trashes the matches in reverse order and then advances the cursor
by one exactly when the cursor itself was the first match
(`if i == filtered_files[0]`); bulk `'k'` jumps the cursor to one past the
highest matching index (`max + 1`); any other answer takes no action and
leaves the cursor. -/
def stepFilterCmd (st : St) (env1 : Env) : StepRes :=
  match popInput env1 with
  | none => .halt .stuck []
  | some ce =>
    match filterScan st.files (strTrim ce.1)
        (List.range' st.i (st.files.length - st.i)) ce.2 with
    | none => .halt .stuck []
    | some me =>
      if me.1.isEmpty then .cont st me.2 []
      else
        match popInput me.2 with
        | none => .halt .stuck []
        | some ae =>
          match parseCmd ae.1 with
          | 't' =>
            match trashMany me.1.reverse st ae.2 with
            | none => .halt .stuck []
            | some t =>
              .cont { t.1 with i := if st.i = me.1.headD 0 then st.i + 1 else st.i }
                t.2.1 t.2.2
          | 'k' => .cont { st with i := me.1.foldl max st.i + 1 } ae.2 []
          | _ => .cont st ae.2 []

/-- The `'a'` branch (lib.rs:1285-1302): read the action to apply to all
remaining files; only `t`/`k` are stored, anything else warns; the cursor
stays either way. -/
def stepAllCmd (st : St) (env1 : Env) : StepRes :=
  match popInput env1 with
  | none => .halt .stuck []
  | some ae =>
    if parseCmd ae.1 = 't' ∨ parseCmd ae.1 = 'k' then
      .cont { st with allAction := some (parseCmd ae.1) } ae.2 []
    else .cont st ae.2 [Ev.warnEv]

/-- One iteration of the main loop (lib.rs:813-1311).  When the cursor has
reached the end of the queue the loop exits into the existence-based summary.
Otherwise the override is applied without prompting if set; else one command
line is read and dispatched; `'q'` returns immediately with the
partial-progress report (`return Ok(())`, skipping the summary); an invalid
command warns and repeats the file. -/
def syncStep (st : St) (env : Env) : StepRes :=
  if st.i < st.files.length then
    let file := st.files.getD st.i ""
    match st.allAction with
    | some a => stepOverride st env a file
    | none =>
      match popInput env with
      | none => .halt .stuck []
      | some le =>
        match parseCmd le.1 with
        | 't' => stepTrashCmd st le.2 file
        | 'k' => .cont { st with i := st.i + 1 } le.2 []
        | 'v' => stepViewCmd st le.2 file
        | 'd' => stepDirCmd st le.2 file
        | 's' => stepBatchCmd st le.2
        | 'f' => stepFilterCmd st le.2
        | 'q' => .halt (.quit st.i st.files.length)
                   [Ev.quitReport st.i st.files.length]
        | 'a' => stepAllCmd st le.2
        | _ => .cont st le.2 [Ev.warnEv]
  else .halt (summarize st) []

/-- Events of a step result. -/
def stepEvs : StepRes → List Ev
  | .cont _ _ evs => evs
  | .halt _ evs => evs

/-- The fuelled runner iterating `syncStep`: returns the terminal outcome, the
final loop state, and the concatenated event trace.  Fuel bounds the number
of outer-loop iterations; exhaustion is the artificial `stuck` outcome. -/
def runAux : Nat → St → Env → Outcome × St × List Ev
  | 0, st, _ => (.stuck, st, [])
  | fuel + 1, st, env =>
    match syncStep st env with
    | .halt o evs => (o, st, evs)
    | .cont st' env' evs =>
      let r := runAux fuel st' env'
      (r.1, r.2.1, evs ++ r.2.2)

/-- Shapes of event traces the session can emit: a concatenation of failed
copies, successful copies immediately followed by the delete of the same
source, warnings, and quit reports.  (Deletes never occur outside the second
shape.) -/
inductive TrashChunks : List Ev → Prop
  | nil : TrashChunks []
  | copyFail (p d : String) (rest : List Ev) :
      TrashChunks rest → TrashChunks (.copyEv p d false :: rest)
  | copyDel (p d : String) (b : Bool) (rest : List Ev) :
      TrashChunks rest → TrashChunks (.copyEv p d true :: .delEv p b :: rest)
  | warn (rest : List Ev) : TrashChunks rest → TrashChunks (.warnEv :: rest)
  | quit (a b : Nat) (rest : List Ev) :
      TrashChunks rest → TrashChunks (.quitReport a b :: rest)

/-- A concrete instance of the abstract streaming digest, used to instantiate
the hasher theorems on concrete inputs. -/
def catHasher : StreamHasher where
  S := List Nat
  init := []
  updByte := fun s b => s ++ [b]
  final := fun _ => List.replicate 32 0
  final_len := fun _ => List.length_replicate 32 0

/-! # Theorems -/

/-! ## Reconciliation: claims C1 and C6 -/

theorem ffnii_eq_filter (hash : Path → Option String) (im : List String) :
    ∀ files, find_files_not_in_immich hash im files = files.filter (isMissing hash im)
  | [] => rfl
  | f :: rest => by
    have ih := ffnii_eq_filter hash im rest
    unfold find_files_not_in_immich
    cases hf : hash f with
    | none => simp [List.filter_cons, isMissing, hf, ih]
    | some h =>
      by_cases hc : im.contains h <;>
        simp [List.filter_cons, isMissing, hf, hc, ih]

theorem isMissing_iff (hash : Path → Option String) (im : List String) (f : Path) :
    isMissing hash im f = true ↔
      hash f = none ∨ ∃ h, hash f = some h ∧ im.contains h = false := by
  unfold isMissing
  cases hf : hash f with
  | none => simp
  | some h => simp

/-- C1: a candidate processed by the reconciliation loop is placed on the
missing list iff its hash could not be computed or its hash is absent from the
reference set; in particular a candidate whose hash succeeds and is contained
in the set is never added, and a candidate whose hash fails always is
(lib.rs:597-616). -/
theorem C1_missing_iff (hash : Path → Option String) (im : List String)
    (files : List Path) (f : Path) :
    f ∈ find_files_not_in_immich hash im files ↔
      f ∈ files ∧ (hash f = none ∨ ∃ h, hash f = some h ∧ im.contains h = false) := by
  rw [ffnii_eq_filter, List.mem_filter, isMissing_iff]

/-- C6: the missing list is exactly the walk-ordered candidate list filtered
by the missing classification, so any two candidates classified missing both
appear, in walk order, with no deduplication by hash: splitting the walk
around two missing files splits the output around the same two files
(lib.rs:512-525, 597-616). -/
theorem C6_walk_order_no_dedup :
    (∀ (hash : Path → Option String) (im : List String) (files : List Path),
      find_files_not_in_immich hash im files = files.filter (isMissing hash im)) ∧
    (∀ (hash : Path → Option String) (im : List String) (l1 : List Path) (f1 : Path)
        (l2 : List Path) (f2 : Path) (l3 : List Path),
      isMissing hash im f1 = true → isMissing hash im f2 = true →
      find_files_not_in_immich hash im (l1 ++ f1 :: (l2 ++ f2 :: l3)) =
        find_files_not_in_immich hash im l1 ++
          f1 :: (find_files_not_in_immich hash im l2 ++
            f2 :: find_files_not_in_immich hash im l3)) := by
  constructor
  · exact fun hash im files => ffnii_eq_filter hash im files
  · intro hash im l1 f1 l2 f2 l3 h1 h2
    simp [ffnii_eq_filter, List.filter_append, List.filter_cons, h1, h2]

/-- Witness for C6: two distinct paths with identical content hashes both
appear, in order. -/
theorem C6_witness :
    isMissing (fun _ => some "h") [] "/b/a.jpg" = true ∧
    isMissing (fun _ => some "h") [] "/b/b.jpg" = true ∧
    find_files_not_in_immich (fun _ => some "h") []
        ([] ++ "/b/a.jpg" :: ([] ++ "/b/b.jpg" :: [])) =
      find_files_not_in_immich (fun _ => some "h") [] [] ++
        "/b/a.jpg" :: (find_files_not_in_immich (fun _ => some "h") [] [] ++
          "/b/b.jpg" :: find_files_not_in_immich (fun _ => some "h") [] []) :=
  ⟨rfl, rfl, C6_walk_order_no_dedup.2 _ _ [] _ [] _ [] rfl rfl⟩

/-! ## Content hasher: claim C7 -/

theorem foldl_hasherUpdate (H : StreamHasher) :
    ∀ (cs : List (List Nat)) (s : H.S),
      cs.foldl (hasherUpdate H) s = hasherUpdate H s cs.flatten
  | [], _ => rfl
  | c :: cs, s => by
    have ih := foldl_hasherUpdate H cs (hasherUpdate H s c)
    simp only [hasherUpdate] at ih
    simp only [List.foldl_cons, List.flatten_cons, hasherUpdate,
      List.foldl_append, ih]

theorem hexString_length : ∀ bytes : List Nat, (hexString bytes).length = 2 * bytes.length
  | [] => rfl
  | b :: bs => by
    have ih := hexString_length bs
    show (byteToHex b ++ (bs.map byteToHex).flatten).length = 2 * (b :: bs).length
    rw [List.length_append]
    have h2 : (byteToHex b).length = 2 := rfl
    have ih' : ((bs.map byteToHex).flatten).length = 2 * bs.length := ih
    rw [h2, ih']
    simp [Nat.mul_add, Nat.mul_succ]
    omega

theorem hexChar_mem : ∀ n, n < 16 → hexChar n ∈ ("0123456789abcdef").data := by
  decide

theorem hexString_chars (bytes : List Nat) :
    ∀ c ∈ (hexString bytes).data, c ∈ ("0123456789abcdef").data := by
  intro c hc
  have hm : c ∈ (bytes.map byteToHex).flatten := hc
  rw [List.mem_flatten] at hm
  obtain ⟨l, hl, hcl⟩ := hm
  rw [List.mem_map] at hl
  obtain ⟨b, _, rfl⟩ := hl
  simp only [byteToHex, List.mem_cons, List.mem_singleton] at hcl
  rcases hcl with rfl | rfl | h
  · exact hexChar_mem _ (Nat.mod_lt _ (by omega))
  · exact hexChar_mem _ (Nat.mod_lt _ (by omega))
  · cases h

/-- C7: the hash is deterministic and chunking-independent: any two chunkings
of the same byte stream give the same digest, equal to hashing the stream in
one piece, and the output is a 64-character lowercase hex string
(lib.rs:466-495). -/
theorem C7_hash_deterministic (H : StreamHasher) (cs1 cs2 : List (List Nat))
    (hjoin : cs1.flatten = cs2.flatten) :
    calculate_file_hash H (some cs1) = calculate_file_hash H (some cs2) ∧
    calculate_file_hash H (some cs1) = calculate_file_hash H (some [cs1.flatten]) ∧
    ∃ s, calculate_file_hash H (some cs1) = some s ∧ s.length = 64 ∧
      ∀ c ∈ s.data, c ∈ ("0123456789abcdef").data := by
  have key : ∀ cs : List (List Nat), calculate_file_hash H (some cs) =
      some (hexString (H.final (hasherUpdate H H.init cs.flatten))) := by
    intro cs
    simp [calculate_file_hash, foldl_hasherUpdate]
  refine ⟨?_, ?_, ?_⟩
  · rw [key, key, hjoin]
  · rw [key, key]
    simp
  · refine ⟨_, key cs1, ?_, hexString_chars _⟩
    rw [hexString_length, H.final_len]

/-- Witness for C7 at a concrete hasher and two concrete chunkings of the
same stream. -/
theorem C7_witness :
    ([[1], [2, 3]] : List (List Nat)).flatten = ([[1, 2, 3]] : List (List Nat)).flatten ∧
    (calculate_file_hash catHasher (some [[1], [2, 3]]) =
        calculate_file_hash catHasher (some [[1, 2, 3]]) ∧
      calculate_file_hash catHasher (some [[1], [2, 3]]) =
        calculate_file_hash catHasher (some [([[1], [2, 3]] : List (List Nat)).flatten]) ∧
      ∃ s, calculate_file_hash catHasher (some [[1], [2, 3]]) = some s ∧ s.length = 64 ∧
        ∀ c ∈ s.data, c ∈ ("0123456789abcdef").data) :=
  ⟨rfl, C7_hash_deterministic catHasher [[1], [2, 3]] [[1, 2, 3]] rfl⟩

/-! ## Session machine: event-trace and state invariants -/

theorem tc_append {a b : List Ev} (ha : TrashChunks a) (hb : TrashChunks b) :
    TrashChunks (a ++ b) := by
  induction ha with
  | nil => exact hb
  | copyFail p d rest _ ih => exact .copyFail p d _ ih
  | copyDel p d bb rest _ ih => exact .copyDel p d bb _ ih
  | warn rest _ ih => exact .warn _ ih
  | quit x y rest _ ih => exact .quit x y _ ih

theorem trashOne_evs {st : St} {env : Env} {file : Path} {r : TrashRes}
    (h : trashOne st env file = some r) : TrashChunks r.evs := by
  unfold trashOne at h
  split at h
  · cases h
  · dsimp only at h
    split at h
    · cases h
      exact .copyDel _ _ _ _ .nil
    · cases h
      exact .copyFail _ _ _ .nil

theorem trashOne_st {st : St} {env : Env} {file : Path} {r : TrashRes}
    (h : trashOne st env file = some r) :
    r.st.files = st.files ∧ r.st.i = st.i ∧ r.st.allAction = st.allAction ∧
      r.st.trashDir = st.trashDir := by
  unfold trashOne at h
  split at h
  · cases h
  · dsimp only at h
    split at h <;> cases h <;> exact ⟨rfl, rfl, rfl, rfl⟩

theorem trashMany_evs : ∀ (idxs : List Nat) (st : St) (env : Env)
    (out : St × Env × List Ev), trashMany idxs st env = some out → TrashChunks out.2.2
  | [], _, _, _, h => by
    cases h
    exact .nil
  | _ :: rest, st, env, out, h => by
    unfold trashMany at h
    split at h
    · cases h
    · rename_i r hr
      split at h
      · cases h
      · rename_i t ht
        cases h
        exact tc_append (trashOne_evs hr) (trashMany_evs rest r.st r.env t ht)

theorem trashMany_st : ∀ (idxs : List Nat) (st : St) (env : Env)
    (out : St × Env × List Ev), trashMany idxs st env = some out →
    out.1.files = st.files ∧ out.1.i = st.i ∧ out.1.allAction = st.allAction ∧
      out.1.trashDir = st.trashDir
  | [], _, _, _, h => by
    cases h
    exact ⟨rfl, rfl, rfl, rfl⟩
  | _ :: rest, st, env, out, h => by
    unfold trashMany at h
    split at h
    · cases h
    · rename_i r hr
      split at h
      · cases h
      · rename_i t ht
        cases h
        have h1 := trashOne_st hr
        have h2 := trashMany_st rest r.st r.env t ht
        exact ⟨h2.1.trans h1.1, h2.2.1.trans h1.2.1,
          h2.2.2.1.trans h1.2.2.1, h2.2.2.2.trans h1.2.2.2⟩

theorem stepOverride_evs (st : St) (env : Env) (a : Char) (file : Path) :
    TrashChunks (stepEvs (stepOverride st env a file)) := by
  unfold stepOverride
  repeat' split
  all_goals first
    | exact .nil
    | exact .warn _ .nil
    | exact trashOne_evs (by assumption)

theorem stepTrashCmd_evs (st : St) (env1 : Env) (file : Path) :
    TrashChunks (stepEvs (stepTrashCmd st env1 file)) := by
  unfold stepTrashCmd
  repeat' split
  all_goals first
    | exact .nil
    | exact trashOne_evs (by assumption)

theorem stepViewCmd_evs (st : St) (env1 : Env) (file : Path) :
    TrashChunks (stepEvs (stepViewCmd st env1 file)) := by
  unfold stepViewCmd
  repeat' split
  all_goals exact .nil

theorem stepDirCmd_evs (st : St) (env1 : Env) (file : Path) :
    TrashChunks (stepEvs (stepDirCmd st env1 file)) := by
  unfold stepDirCmd
  repeat' split
  all_goals first
    | exact .nil
    | exact .warn _ .nil

theorem stepBatchCmd_evs (st : St) (env1 : Env) :
    TrashChunks (stepEvs (stepBatchCmd st env1)) := by
  unfold stepBatchCmd
  repeat' split
  all_goals first
    | exact .nil
    | exact .warn _ .nil
    | exact trashMany_evs _ _ _ _ (by assumption)

theorem stepFilterCmd_evs (st : St) (env1 : Env) :
    TrashChunks (stepEvs (stepFilterCmd st env1)) := by
  unfold stepFilterCmd
  repeat' split
  all_goals first
    | exact .nil
    | exact .warn _ .nil
    | exact trashMany_evs _ _ _ _ (by assumption)

theorem stepAllCmd_evs (st : St) (env1 : Env) :
    TrashChunks (stepEvs (stepAllCmd st env1)) := by
  unfold stepAllCmd
  repeat' split
  all_goals first
    | exact .nil
    | exact .warn _ .nil

theorem syncStep_evs (st : St) (env : Env) :
    TrashChunks (stepEvs (syncStep st env)) := by
  unfold syncStep
  repeat' split
  all_goals first
    | exact .nil
    | exact .warn _ .nil
    | exact .quit _ _ _ .nil
    | exact stepOverride_evs _ _ _ _
    | exact stepTrashCmd_evs _ _ _
    | exact stepViewCmd_evs _ _ _
    | exact stepDirCmd_evs _ _ _
    | exact stepBatchCmd_evs _ _
    | exact stepFilterCmd_evs _ _
    | exact stepAllCmd_evs _ _

theorem runAux_evs : ∀ (fuel : Nat) (st : St) (env : Env),
    TrashChunks (runAux fuel st env).2.2
  | 0, _, _ => .nil
  | fuel + 1, st, env => by
    unfold runAux
    split
    · rename_i o evs h
      have h1 := syncStep_evs st env
      rw [h] at h1
      exact h1
    · rename_i st' env' evs h
      have h1 := syncStep_evs st env
      rw [h] at h1
      exact tc_append h1 (runAux_evs fuel st' env')

theorem tc_del_preceded {t : List Ev} (h : TrashChunks t) :
    ∀ (k : Nat) (p : String) (b : Bool), t[k]? = some (Ev.delEv p b) →
      1 ≤ k ∧ ∃ d, t[k - 1]? = some (Ev.copyEv p d true) := by
  induction h with
  | nil =>
    intro k p b hk
    simp at hk
  | copyFail q d rest _ ih =>
    intro k p b hk
    match k with
    | 0 => simp at hk
    | m + 1 =>
      obtain ⟨hm, dd, hd⟩ := ih m p b (by simpa using hk)
      obtain ⟨m', rfl⟩ : ∃ m', m = m' + 1 := ⟨m - 1, by omega⟩
      exact ⟨by omega, dd, by simpa using hd⟩
  | copyDel q d bb rest _ ih =>
    intro k p b hk
    match k with
    | 0 => simp at hk
    | 1 =>
      simp only [List.getElem?_cons_succ, List.getElem?_cons_zero,
        Option.some.injEq] at hk
      cases hk
      exact ⟨le_refl 1, d, rfl⟩
    | m + 2 =>
      obtain ⟨hm, dd, hd⟩ := ih m p b (by simpa using hk)
      obtain ⟨m', rfl⟩ : ∃ m', m = m' + 1 := ⟨m - 1, by omega⟩
      exact ⟨by omega, dd, by simpa using hd⟩
  | warn rest _ ih =>
    intro k p b hk
    match k with
    | 0 => simp at hk
    | m + 1 =>
      obtain ⟨hm, dd, hd⟩ := ih m p b (by simpa using hk)
      obtain ⟨m', rfl⟩ : ∃ m', m = m' + 1 := ⟨m - 1, by omega⟩
      exact ⟨by omega, dd, by simpa using hd⟩
  | quit x y rest _ ih =>
    intro k p b hk
    match k with
    | 0 => simp at hk
    | m + 1 =>
      obtain ⟨hm, dd, hd⟩ := ih m p b (by simpa using hk)
      obtain ⟨m', rfl⟩ : ∃ m', m = m' + 1 := ⟨m - 1, by omega⟩
      exact ⟨by omega, dd, by simpa using hd⟩

/-- C2: in every event trace the session can produce - whichever of the
interactive, override, batch or filter paths performed the relocations -
a delete of an original is always immediately preceded by the successful
copy of that same original to its trash destination; in particular a failed
copy is never followed by a delete of that file (lib.rs:835-845, 886-909,
1115-1123, 1248-1256). -/
theorem C2_delete_after_copy (fuel : Nat) (st : St) (env : Env) (k : Nat)
    (p : String) (b : Bool)
    (h : (runAux fuel st env).2.2[k]? = some (Ev.delEv p b)) :
    1 ≤ k ∧ ∃ d, (runAux fuel st env).2.2[k - 1]? = some (Ev.copyEv p d true) :=
  tc_del_preceded (runAux_evs fuel st env) k p b h

/-- Witness for C2: a concrete interactive-trash run whose trace contains a
delete, necessarily right after its successful copy. -/
theorem C2_witness :
    (runAux 3 ⟨["/b/x.jpg"], 0, none, ["/b/x.jpg"], "/T"⟩
        ⟨["t"], [true], [true], []⟩).2.2[1]? = some (Ev.delEv "/b/x.jpg" true) ∧
    (1 ≤ 1 ∧ ∃ d, (runAux 3 ⟨["/b/x.jpg"], 0, none, ["/b/x.jpg"], "/T"⟩
        ⟨["t"], [true], [true], []⟩).2.2[1 - 1]? =
          some (Ev.copyEv "/b/x.jpg" d true)) :=
  ⟨by decide, C2_delete_after_copy 3 _ _ 1 "/b/x.jpg" true (by decide)⟩

theorem stepOverride_files {st : St} {env : Env} {a : Char} {file : Path}
    {st' : St} {env' : Env} {evs : List Ev}
    (h : stepOverride st env a file = .cont st' env' evs) : st'.files = st.files := by
  unfold stepOverride at h
  repeat' split at h
  all_goals cases h
  all_goals first
    | rfl
    | exact (trashOne_st (by assumption)).1

theorem stepTrashCmd_files {st : St} {env1 : Env} {file : Path}
    {st' : St} {env' : Env} {evs : List Ev}
    (h : stepTrashCmd st env1 file = .cont st' env' evs) : st'.files = st.files := by
  unfold stepTrashCmd at h
  repeat' split at h
  all_goals cases h
  all_goals exact (trashOne_st (by assumption)).1

theorem stepViewCmd_files {st : St} {env1 : Env} {file : Path}
    {st' : St} {env' : Env} {evs : List Ev}
    (h : stepViewCmd st env1 file = .cont st' env' evs) : st'.files = st.files := by
  unfold stepViewCmd at h
  repeat' split at h
  all_goals cases h
  all_goals rfl

theorem stepDirCmd_files {st : St} {env1 : Env} {file : Path}
    {st' : St} {env' : Env} {evs : List Ev}
    (h : stepDirCmd st env1 file = .cont st' env' evs) : st'.files = st.files := by
  unfold stepDirCmd at h
  repeat' split at h
  all_goals cases h
  all_goals rfl

theorem stepBatchCmd_files {st : St} {env1 : Env}
    {st' : St} {env' : Env} {evs : List Ev}
    (h : stepBatchCmd st env1 = .cont st' env' evs) : st'.files = st.files := by
  unfold stepBatchCmd at h
  repeat' split at h
  all_goals cases h
  all_goals first
    | rfl
    | exact (trashMany_st _ _ _ _ (by assumption)).1

theorem stepFilterCmd_files {st : St} {env1 : Env}
    {st' : St} {env' : Env} {evs : List Ev}
    (h : stepFilterCmd st env1 = .cont st' env' evs) : st'.files = st.files := by
  unfold stepFilterCmd at h
  repeat' split at h
  all_goals cases h
  all_goals first
    | rfl
    | exact (trashMany_st _ _ _ _ (by assumption)).1

theorem stepAllCmd_files {st : St} {env1 : Env}
    {st' : St} {env' : Env} {evs : List Ev}
    (h : stepAllCmd st env1 = .cont st' env' evs) : st'.files = st.files := by
  unfold stepAllCmd at h
  repeat' split at h
  all_goals cases h
  all_goals rfl

theorem syncStep_files {st : St} {env : Env}
    {st' : St} {env' : Env} {evs : List Ev}
    (h : syncStep st env = .cont st' env' evs) : st'.files = st.files := by
  unfold syncStep at h
  repeat' split at h
  all_goals first
    | exact stepOverride_files h
    | exact stepTrashCmd_files h
    | exact stepViewCmd_files h
    | exact stepDirCmd_files h
    | exact stepBatchCmd_files h
    | exact stepFilterCmd_files h
    | exact stepAllCmd_files h
    | (cases h; rfl)
    | cases h

theorem runAux_files : ∀ (fuel : Nat) (st : St) (env : Env),
    (runAux fuel st env).2.1.files = st.files
  | 0, _, _ => rfl
  | fuel + 1, st, env => by
    unfold runAux
    split
    · rfl
    · rename_i st' env' evs h
      have ih := runAux_files fuel st' env'
      show (runAux fuel st' env').2.1.files = st.files
      exact ih.trans (syncStep_files h)

/-! ## Step-dispatch lemmas -/

theorem syncStep_override (st : St) (env : Env) (a : Char)
    (hact : st.allAction = some a) (hi : st.i < st.files.length) :
    syncStep st env = stepOverride st env a (st.files.getD st.i "") := by
  unfold syncStep
  rw [if_pos hi, hact]

theorem stepOverride_t (st : St) (env : Env) (file : Path) :
    stepOverride st env 't' file =
      (match trashOne st env file with
       | none => .halt .stuck []
       | some r => .cont { r.st with i := st.i + 1 } r.env r.evs) := rfl

theorem syncStep_eq (st : St) (env : Env) (line : String) (env1 : Env)
    (hact : st.allAction = none) (hi : st.i < st.files.length)
    (hpop : popInput env = some (line, env1)) :
    syncStep st env =
      match parseCmd line with
      | 't' => stepTrashCmd st env1 (st.files.getD st.i "")
      | 'k' => .cont { st with i := st.i + 1 } env1 []
      | 'v' => stepViewCmd st env1 (st.files.getD st.i "")
      | 'd' => stepDirCmd st env1 (st.files.getD st.i "")
      | 's' => stepBatchCmd st env1
      | 'f' => stepFilterCmd st env1
      | 'q' => .halt (.quit st.i st.files.length) [Ev.quitReport st.i st.files.length]
      | 'a' => stepAllCmd st env1
      | _ => .cont st env1 [Ev.warnEv] := by
  unfold syncStep
  rw [if_pos hi, hact, hpop]

theorem chooseDestAux_stop {ex : String → Bool} {trashDir name : String}
    {fuel counter : Nat} {dest : String} {env : Env} (h : ex dest = false) :
    chooseDestAux ex trashDir name (fuel + 1) counter dest env = some (dest, env) := by
  unfold chooseDestAux
  rw [if_neg (by simp [h])]

theorem chooseDestAux_go {ex : String → Bool} {trashDir name : String}
    {fuel counter : Nat} {dest : String} {env : Env} (h : ex dest = true) :
    chooseDestAux ex trashDir name (fuel + 1) counter dest env =
      chooseDestAux ex trashDir name fuel (counter + 1)
        (trashDir ++ "/" ++ (name ++ "-" ++ (popNow env).1 ++ "-" ++ toString counter))
        (popNow env).2 := by
  conv_lhs => unfold chooseDestAux
  rw [if_pos h]

theorem chooseDestAux_fresh : ∀ (fuel counter : Nat) (ex : String → Bool)
    (trashDir name dest : String) (env : Env) (out : String × Env),
    chooseDestAux ex trashDir name fuel counter dest env = some out → ex out.1 = false
  | 0, _, _, _, _, _, _, _, h => by cases h
  | fuel + 1, counter, ex, trashDir, name, dest, env, out, h => by
    unfold chooseDestAux at h
    split at h
    · exact chooseDestAux_fresh fuel (counter + 1) ex trashDir name _ _ out h
    · rename_i hex
      cases h
      simpa using hex

theorem chooseDestAux_shape : ∀ (fuel counter : Nat) (ex : String → Bool)
    (trashDir name dest : String) (env : Env) (out : String × Env),
    1 ≤ counter →
    (dest = trashDir ++ "/" ++ name ∨
      ∃ ts k, 1 ≤ k ∧ dest = trashDir ++ "/" ++ (name ++ "-" ++ ts ++ "-" ++ toString k)) →
    chooseDestAux ex trashDir name fuel counter dest env = some out →
    (out.1 = trashDir ++ "/" ++ name ∨
      ∃ ts k, 1 ≤ k ∧ out.1 = trashDir ++ "/" ++ (name ++ "-" ++ ts ++ "-" ++ toString k))
  | 0, _, _, _, _, _, _, _, _, _, h => by cases h
  | fuel + 1, counter, ex, trashDir, name, dest, env, out, hc, hshape, h => by
    unfold chooseDestAux at h
    split at h
    · exact chooseDestAux_shape fuel (counter + 1) ex trashDir name _ _ out
        (by omega) (Or.inr ⟨(popNow env).1, counter, hc, rfl⟩) h
    · cases h
      exact hshape

theorem trashOne_fs_preserved {st : St} {env : Env} {file : Path} {r : TrashRes}
    (h : trashOne st env file = some r) :
    ∀ q, q ∈ st.fs → q ≠ file → q ∈ r.st.fs := by
  unfold trashOne at h
  split at h
  · cases h
  · dsimp only at h
    split at h <;> cases h
    · intro q hq hne
      show q ∈ (if _ = true then _ else _)
      split
      · exact (List.mem_erase_of_ne hne).mpr (List.mem_cons_of_mem _ hq)
      · exact List.mem_cons_of_mem _ hq
    · exact fun q hq _ => hq

theorem stepTrashCmd_copyfail {st : St} {env1 : Env} {file : Path} {r : TrashRes}
    {ans : String} {env2 : Env}
    (htr : trashOne st env1 file = some r) (hcf : r.copied = false)
    (hpop2 : popInput r.env = some (ans, env2)) :
    stepTrashCmd st env1 file =
      (if strLower (strTrim ans) = "n" then .cont { r.st with i := st.i + 1 } env2 r.evs
       else .cont r.st env2 r.evs) := by
  unfold stepTrashCmd
  simp only [htr, hcf, Bool.false_eq_true, if_false, hpop2]

theorem stepFilterCmd_eq {st : St} {env1 : Env} {cline : String} {env2 : Env}
    {matched : List Nat} {env3 : Env} {aline : String} {env4 : Env}
    (hpop1 : popInput env1 = some (cline, env2))
    (hscan : filterScan st.files (strTrim cline)
        (List.range' st.i (st.files.length - st.i)) env2 = some (matched, env3))
    (hne : matched.isEmpty = false)
    (hpop2 : popInput env3 = some (aline, env4)) :
    stepFilterCmd st env1 =
      match parseCmd aline with
      | 't' =>
        match trashMany matched.reverse st env4 with
        | none => .halt .stuck []
        | some t =>
          .cont { t.1 with i := if st.i = matched.headD 0 then st.i + 1 else st.i }
            t.2.1 t.2.2
      | 'k' => .cont { st with i := matched.foldl max st.i + 1 } env4 []
      | _ => .cont st env4 [] := by
  unfold stepFilterCmd
  simp only [hpop1, hscan, hne, Bool.false_eq_true, if_false, hpop2]

/-! ## Claim C3: collision-safe trash naming -/

/-- C3: the collision loop starts from the plain `trashDir/name` and retries
`name-timestamp-counter` with the incremented counter until the candidate does
not exist, so the chosen destination never coincides with an existing entry
(conjunct 1) and is either the plain name or a counter-suffixed name with
counter at least 1 (conjunct 2); a relocation leaves every existing path other
than the relocated original in place (conjunct 3); and trashing a second
`x.jpg` while the trash already holds `x.jpg` picks exactly the name
`x.jpg-<timestamp>-1` (conjunct 4) (lib.rs:875-885 and its copies). -/
theorem C3_collision_suffix :
    (∀ (ex : String → Bool) (trashDir name : String) (env : Env) (fuel : Nat)
        (out : String × Env),
      chooseDest ex trashDir name env fuel = some out → ex out.1 = false) ∧
    (∀ (ex : String → Bool) (trashDir name : String) (env : Env) (fuel : Nat)
        (out : String × Env),
      chooseDest ex trashDir name env fuel = some out →
      out.1 = trashDir ++ "/" ++ name ∨
        ∃ ts k, 1 ≤ k ∧
          out.1 = trashDir ++ "/" ++ (name ++ "-" ++ ts ++ "-" ++ toString k)) ∧
    (∀ (st : St) (env : Env) (file : Path) (r : TrashRes),
      trashOne st env file = some r → ∀ q, q ∈ st.fs → q ≠ file → q ∈ r.st.fs) ∧
    (∀ (ts : String) (rest : List String),
      chooseDest (fun s => s == "/T/x.jpg") "/T" "x.jpg" ⟨[], [], [], ts :: rest⟩ 2 =
        some ("/T/x.jpg-" ++ ts ++ "-1", ⟨[], [], [], rest⟩)) := by
  refine ⟨?_, ?_, ?_, ?_⟩
  · intro ex trashDir name env fuel out h
    exact chooseDestAux_fresh fuel 1 ex trashDir name _ env out h
  · intro ex trashDir name env fuel out h
    exact chooseDestAux_shape fuel 1 ex trashDir name _ env out
      (le_refl 1) (Or.inl rfl) h
  · exact fun _ _ _ _ h => trashOne_fs_preserved h
  · intro ts rest
    have hne : ("/T" ++ "/" ++ ("x.jpg" ++ "-" ++ ts ++ "-" ++ toString 1))
        ≠ ("/T/x.jpg" : String) := by
      intro hcon
      have hlen := congrArg String.length hcon
      simp only [String.length_append] at hlen
      have e1 : ("/T" : String).length = 2 := rfl
      have e2 : ("/" : String).length = 1 := rfl
      have e3 : ("x.jpg" : String).length = 5 := rfl
      have e4 : ("-" : String).length = 1 := rfl
      have e5 : (toString (1 : Nat)).length = 1 := rfl
      have e6 : ("/T/x.jpg" : String).length = 8 := rfl
      rw [e1, e2, e3, e4, e5, e6] at hlen
      omega
    have hbeq : ((fun s => s == "/T/x.jpg")
        ("/T" ++ "/" ++ ("x.jpg" ++ "-" ++ ts ++ "-" ++ toString 1))) = false :=
      beq_eq_false_iff_ne.mpr hne
    have heqdest : "/T" ++ "/" ++ ("x.jpg" ++ "-" ++ ts ++ "-" ++ toString 1)
        = "/T/x.jpg-" ++ ts ++ "-1" := by
      apply String.ext
      have h1 : (toString 1).data = ['1'] := rfl
      simp only [String.data_append, List.append_assoc, h1, List.cons_append,
        List.nil_append]
    unfold chooseDest
    rw [chooseDestAux_go (by decide)]
    simp only [popNow]
    rw [@chooseDestAux_stop (fun s => s == "/T/x.jpg") "/T" "x.jpg" 0 (1 + 1)
      ("/T" ++ "/" ++ ("x.jpg" ++ "-" ++ ts ++ "-" ++ toString 1))
      ⟨[], [], [], rest⟩ hbeq, heqdest]

/-- Witness for C3: concrete collision with one existing `x.jpg`, plus a
concrete relocation preserving an unrelated trash entry. -/
theorem C3_witness :
    chooseDest (fun s => s == "/T/x.jpg") "/T" "x.jpg" ⟨[], [], [], ["20250101"]⟩ 2 =
      some ("/T/x.jpg-20250101-1", ⟨[], [], [], []⟩) ∧
    (fun s => s == "/T/x.jpg") "/T/x.jpg-20250101-1" = false ∧
    ("/T/x.jpg-20250101-1" = "/T" ++ "/" ++ "x.jpg" ∨
      ∃ ts k, 1 ≤ k ∧ "/T/x.jpg-20250101-1" =
        "/T" ++ "/" ++ ("x.jpg" ++ "-" ++ ts ++ "-" ++ toString k)) ∧
    (trashOne ⟨["/b/x.jpg"], 0, none, ["/b/x.jpg", "/T/old.jpg"], "/T"⟩
        ⟨[], [], [], []⟩ "/b/x.jpg" =
      some ⟨⟨["/b/x.jpg"], 0, none, ["/T/x.jpg", "/T/old.jpg"], "/T"⟩, ⟨[], [], [], []⟩,
            [Ev.copyEv "/b/x.jpg" "/T/x.jpg" true, Ev.delEv "/b/x.jpg" true], true⟩) ∧
    "/T/old.jpg" ∈
      (⟨⟨["/b/x.jpg"], 0, none, ["/T/x.jpg", "/T/old.jpg"], "/T"⟩, ⟨[], [], [], []⟩,
        [Ev.copyEv "/b/x.jpg" "/T/x.jpg" true, Ev.delEv "/b/x.jpg" true], true⟩ :
          TrashRes).st.fs :=
  ⟨by decide,
   C3_collision_suffix.1 (fun s => s == "/T/x.jpg") "/T" "x.jpg"
     ⟨[], [], [], ["20250101"]⟩ 2 ("/T/x.jpg-20250101-1", ⟨[], [], [], []⟩) (by decide),
   C3_collision_suffix.2.1 (fun s => s == "/T/x.jpg") "/T" "x.jpg"
     ⟨[], [], [], ["20250101"]⟩ 2 ("/T/x.jpg-20250101-1", ⟨[], [], [], []⟩) (by decide),
   by decide,
   C3_collision_suffix.2.2.1 ⟨["/b/x.jpg"], 0, none, ["/b/x.jpg", "/T/old.jpg"], "/T"⟩
     ⟨[], [], [], []⟩ "/b/x.jpg"
     ⟨⟨["/b/x.jpg"], 0, none, ["/T/x.jpg", "/T/old.jpg"], "/T"⟩, ⟨[], [], [], []⟩,
      [Ev.copyEv "/b/x.jpg" "/T/x.jpg" true, Ev.delEv "/b/x.jpg" true], true⟩
     (by decide) "/T/old.jpg" (by decide) (by decide)⟩

/-! ## Claim C4: what happens to the cursor when a trash copy fails -/

/-- C4 counterexample: a concrete session refuting the claim that the cursor
never advances past a file whose copy to trash failed.  The operator sets the
persistent override to trash (`a`, `t`); the copy of the first file fails, yet
the cursor advances past it (it is never retried - the trace holds exactly one
failed copy attempt for it) and the session ends normally with the first file
still present, counted as kept (lib.rs:835-855: the override arm runs `i += 1`
whether or not the copy succeeded). -/
theorem C4_ce :
    runAux 6 ⟨["/b/x.jpg", "/b/y.jpg"], 0, none, ["/b/x.jpg", "/b/y.jpg"], "/T"⟩
        ⟨["a", "t"], [false], [], []⟩ =
      (.done 1 1,
       ⟨["/b/x.jpg", "/b/y.jpg"], 2, some 't', ["/T/y.jpg", "/b/x.jpg"], "/T"⟩,
       [.copyEv "/b/x.jpg" "/T/x.jpg" false, .copyEv "/b/y.jpg" "/T/y.jpg" true,
        .delEv "/b/y.jpg" true]) := by decide

/-- C4 (amended): on a failed trash copy the session always continues, but the
cursor is retained only in the interactive path while the operator keeps
answering the retry prompt with anything other than `n`: with the persistent
override set, the cursor advances past the failed file (conjunct 1); in the
interactive path a retry answer other than `n` repeats the file (conjunct 2),
while answering `n` advances past it (conjunct 3). -/
theorem C4_trash_failure_cursor :
    (∀ (st : St) (env : Env) (r : TrashRes),
      st.allAction = some 't' → st.i < st.files.length →
      trashOne st env (st.files.getD st.i "") = some r → r.copied = false →
      syncStep st env = .cont { r.st with i := st.i + 1 } r.env r.evs) ∧
    (∀ (st : St) (env : Env) (line : String) (env1 : Env) (r : TrashRes)
        (ans : String) (env2 : Env),
      st.allAction = none → st.i < st.files.length →
      popInput env = some (line, env1) → parseCmd line = 't' →
      trashOne st env1 (st.files.getD st.i "") = some r → r.copied = false →
      popInput r.env = some (ans, env2) → strLower (strTrim ans) ≠ "n" →
      syncStep st env = .cont r.st env2 r.evs ∧ r.st.i = st.i) ∧
    (∀ (st : St) (env : Env) (line : String) (env1 : Env) (r : TrashRes)
        (ans : String) (env2 : Env),
      st.allAction = none → st.i < st.files.length →
      popInput env = some (line, env1) → parseCmd line = 't' →
      trashOne st env1 (st.files.getD st.i "") = some r → r.copied = false →
      popInput r.env = some (ans, env2) → strLower (strTrim ans) = "n" →
      syncStep st env = .cont { r.st with i := st.i + 1 } env2 r.evs) := by
  refine ⟨?_, ?_, ?_⟩
  · intro st env r hact hi htr hcf
    rw [syncStep_override st env 't' hact hi, stepOverride_t, htr]
  · intro st env line env1 r ans env2 hact hi hpop hline htr hcf hpop2 hans
    refine ⟨?_, (trashOne_st htr).2.1⟩
    rw [syncStep_eq st env line env1 hact hi hpop, hline]
    show stepTrashCmd st env1 (st.files.getD st.i "") = _
    rw [stepTrashCmd_copyfail htr hcf hpop2, if_neg hans]
  · intro st env line env1 r ans env2 hact hi hpop hline htr hcf hpop2 hans
    rw [syncStep_eq st env line env1 hact hi hpop, hline]
    show stepTrashCmd st env1 (st.files.getD st.i "") = _
    rw [stepTrashCmd_copyfail htr hcf hpop2, if_pos hans]

/-- Witness for C4 (amended): the three conjuncts applied at concrete states:
an override-trash step with a failing copy, and interactive failing-copy steps
with retry answers `y` and `n`. -/
theorem C4_witness :
    trashOne ⟨["/b/x.jpg"], 0, some 't', ["/b/x.jpg"], "/T"⟩ ⟨[], [false], [], []⟩
        "/b/x.jpg" =
      some ⟨⟨["/b/x.jpg"], 0, some 't', ["/b/x.jpg"], "/T"⟩, ⟨[], [], [], []⟩,
            [Ev.copyEv "/b/x.jpg" "/T/x.jpg" false], false⟩ ∧
    syncStep ⟨["/b/x.jpg"], 0, some 't', ["/b/x.jpg"], "/T"⟩ ⟨[], [false], [], []⟩ =
      .cont ⟨["/b/x.jpg"], 1, some 't', ["/b/x.jpg"], "/T"⟩ ⟨[], [], [], []⟩
        [Ev.copyEv "/b/x.jpg" "/T/x.jpg" false] ∧
    (syncStep ⟨["/b/x.jpg"], 0, none, ["/b/x.jpg"], "/T"⟩ ⟨["t", "y"], [false], [], []⟩ =
        .cont ⟨["/b/x.jpg"], 0, none, ["/b/x.jpg"], "/T"⟩ ⟨[], [], [], []⟩
          [Ev.copyEv "/b/x.jpg" "/T/x.jpg" false] ∧
      (⟨["/b/x.jpg"], 0, none, ["/b/x.jpg"], "/T"⟩ : St).i = 0) ∧
    syncStep ⟨["/b/x.jpg"], 0, none, ["/b/x.jpg"], "/T"⟩ ⟨["t", "n"], [false], [], []⟩ =
      .cont ⟨["/b/x.jpg"], 1, none, ["/b/x.jpg"], "/T"⟩ ⟨[], [], [], []⟩
        [Ev.copyEv "/b/x.jpg" "/T/x.jpg" false] :=
  ⟨by decide,
   C4_trash_failure_cursor.1 ⟨["/b/x.jpg"], 0, some 't', ["/b/x.jpg"], "/T"⟩
     ⟨[], [false], [], []⟩
     ⟨⟨["/b/x.jpg"], 0, some 't', ["/b/x.jpg"], "/T"⟩, ⟨[], [], [], []⟩,
      [Ev.copyEv "/b/x.jpg" "/T/x.jpg" false], false⟩
     rfl (by decide) (by decide) rfl,
   C4_trash_failure_cursor.2.1 ⟨["/b/x.jpg"], 0, none, ["/b/x.jpg"], "/T"⟩
     ⟨["t", "y"], [false], [], []⟩ "t" ⟨["y"], [false], [], []⟩
     ⟨⟨["/b/x.jpg"], 0, none, ["/b/x.jpg"], "/T"⟩, ⟨["y"], [], [], []⟩,
      [Ev.copyEv "/b/x.jpg" "/T/x.jpg" false], false⟩
     "y" ⟨[], [], [], []⟩ rfl (by decide) (by decide) (by decide) (by decide) rfl
     (by decide) (by decide),
   C4_trash_failure_cursor.2.2 ⟨["/b/x.jpg"], 0, none, ["/b/x.jpg"], "/T"⟩
     ⟨["t", "n"], [false], [], []⟩ "t" ⟨["n"], [false], [], []⟩
     ⟨⟨["/b/x.jpg"], 0, none, ["/b/x.jpg"], "/T"⟩, ⟨["n"], [], [], []⟩,
      [Ev.copyEv "/b/x.jpg" "/T/x.jpg" false], false⟩
     "n" ⟨[], [], [], []⟩ rfl (by decide) (by decide) (by decide) (by decide) rfl
     (by decide) (by decide)⟩

/-! ## Claim C5: cursor movement of the Filtering sub-state -/

/-- C5 counterexample: a concrete queue `[a.jpg, c.mp4, d.jpg]` with the
photo filter matching positions 0 and 2 and bulk action `keep`.  The claim
says positions that did not match are not skipped; the code sets the cursor to
`max(matched) + 1 = 3`, so position 1 (`c.mp4`, not matching) is skipped
without ever being reviewed (lib.rs:1266). -/
theorem C5_ce :
    syncStep ⟨["/b/a.jpg", "/b/c.mp4", "/b/d.jpg"], 0, none,
        ["/b/a.jpg", "/b/c.mp4", "/b/d.jpg"], "/T"⟩
      ⟨["f", "1", "k"], [], [], []⟩ =
    .cont ⟨["/b/a.jpg", "/b/c.mp4", "/b/d.jpg"], 3, none,
        ["/b/a.jpg", "/b/c.mp4", "/b/d.jpg"], "/T"⟩
      ⟨[], [], [], []⟩ [] := by decide

/-- C5 (amended): with a non-empty matching index list, bulk `keep` sets the
cursor to one past the highest matching index - which may skip non-matching
positions in between (conjunct 1); bulk `trash` advances the cursor by one
exactly when the current position is the first match, so the cursor does not
move past the other filtered positions (conjunct 2); any other answer applies
no action and leaves the cursor unchanged (conjunct 3). -/
theorem C5_filter_cursor :
    (∀ (st : St) (env : Env) (fline : String) (env1 : Env) (cline : String)
        (env2 : Env) (matched : List Nat) (env3 : Env) (aline : String) (env4 : Env),
      st.allAction = none → st.i < st.files.length →
      popInput env = some (fline, env1) → parseCmd fline = 'f' →
      popInput env1 = some (cline, env2) →
      filterScan st.files (strTrim cline)
        (List.range' st.i (st.files.length - st.i)) env2 = some (matched, env3) →
      matched.isEmpty = false →
      popInput env3 = some (aline, env4) → parseCmd aline = 'k' →
      syncStep st env = .cont { st with i := matched.foldl max st.i + 1 } env4 []) ∧
    (∀ (st : St) (env : Env) (fline : String) (env1 : Env) (cline : String)
        (env2 : Env) (matched : List Nat) (env3 : Env) (aline : String) (env4 : Env)
        (t : St × Env × List Ev),
      st.allAction = none → st.i < st.files.length →
      popInput env = some (fline, env1) → parseCmd fline = 'f' →
      popInput env1 = some (cline, env2) →
      filterScan st.files (strTrim cline)
        (List.range' st.i (st.files.length - st.i)) env2 = some (matched, env3) →
      matched.isEmpty = false →
      popInput env3 = some (aline, env4) → parseCmd aline = 't' →
      trashMany matched.reverse st env4 = some t →
      syncStep st env =
        .cont { t.1 with i := if st.i = matched.headD 0 then st.i + 1 else st.i }
          t.2.1 t.2.2) ∧
    (∀ (st : St) (env : Env) (fline : String) (env1 : Env) (cline : String)
        (env2 : Env) (matched : List Nat) (env3 : Env) (aline : String) (env4 : Env),
      st.allAction = none → st.i < st.files.length →
      popInput env = some (fline, env1) → parseCmd fline = 'f' →
      popInput env1 = some (cline, env2) →
      filterScan st.files (strTrim cline)
        (List.range' st.i (st.files.length - st.i)) env2 = some (matched, env3) →
      matched.isEmpty = false →
      popInput env3 = some (aline, env4) →
      parseCmd aline ≠ 't' → parseCmd aline ≠ 'k' →
      syncStep st env = .cont st env4 []) := by
  refine ⟨?_, ?_, ?_⟩
  · intro st env fline env1 cline env2 matched env3 aline env4
      hact hi hpop hline hpop1 hscan hne hpop2 haline
    rw [syncStep_eq st env fline env1 hact hi hpop, hline]
    show stepFilterCmd st env1 = _
    rw [stepFilterCmd_eq hpop1 hscan hne hpop2, haline]
    rfl
  · intro st env fline env1 cline env2 matched env3 aline env4 t
      hact hi hpop hline hpop1 hscan hne hpop2 haline htm
    rw [syncStep_eq st env fline env1 hact hi hpop, hline]
    show stepFilterCmd st env1 = _
    rw [stepFilterCmd_eq hpop1 hscan hne hpop2, haline, htm]
    rfl
  · intro st env fline env1 cline env2 matched env3 aline env4
      hact hi hpop hline hpop1 hscan hne hpop2 halinet halinek
    rw [syncStep_eq st env fline env1 hact hi hpop, hline]
    show stepFilterCmd st env1 = _
    rw [stepFilterCmd_eq hpop1 hscan hne hpop2]
    split
    · exact absurd (by assumption) halinet
    · exact absurd (by assumption) halinek
    · rfl

/-- Witness for C5 (amended): the three conjuncts applied at concrete filter
sessions (photo filter over `[a.jpg, c.mp4, d.jpg]` for `keep`/`none`, and a
one-file queue for `trash`). -/
theorem C5_witness :
    filterScan ["/b/a.jpg", "/b/c.mp4", "/b/d.jpg"] "1" (List.range' 0 3)
        ⟨["k"], [], [], []⟩ = some ([0, 2], ⟨["k"], [], [], []⟩) ∧
    syncStep ⟨["/b/a.jpg", "/b/c.mp4", "/b/d.jpg"], 0, none,
        ["/b/a.jpg", "/b/c.mp4", "/b/d.jpg"], "/T"⟩ ⟨["f", "1", "k"], [], [], []⟩ =
      .cont ⟨["/b/a.jpg", "/b/c.mp4", "/b/d.jpg"], 3, none,
        ["/b/a.jpg", "/b/c.mp4", "/b/d.jpg"], "/T"⟩ ⟨[], [], [], []⟩ [] ∧
    syncStep ⟨["/b/a.jpg"], 0, none, ["/b/a.jpg"], "/T"⟩
        ⟨["f", "1", "t"], [true], [true], []⟩ =
      .cont ⟨["/b/a.jpg"], 1, none, ["/T/a.jpg"], "/T"⟩ ⟨[], [], [], []⟩
        [Ev.copyEv "/b/a.jpg" "/T/a.jpg" true, Ev.delEv "/b/a.jpg" true] ∧
    syncStep ⟨["/b/a.jpg", "/b/c.mp4", "/b/d.jpg"], 0, none,
        ["/b/a.jpg", "/b/c.mp4", "/b/d.jpg"], "/T"⟩ ⟨["f", "1", "x"], [], [], []⟩ =
      .cont ⟨["/b/a.jpg", "/b/c.mp4", "/b/d.jpg"], 0, none,
        ["/b/a.jpg", "/b/c.mp4", "/b/d.jpg"], "/T"⟩ ⟨[], [], [], []⟩ [] :=
  ⟨by decide,
   C5_filter_cursor.1 ⟨["/b/a.jpg", "/b/c.mp4", "/b/d.jpg"], 0, none,
       ["/b/a.jpg", "/b/c.mp4", "/b/d.jpg"], "/T"⟩
     ⟨["f", "1", "k"], [], [], []⟩ "f" ⟨["1", "k"], [], [], []⟩ "1"
     ⟨["k"], [], [], []⟩ [0, 2] ⟨["k"], [], [], []⟩ "k" ⟨[], [], [], []⟩
     rfl (by decide) (by decide) (by decide) (by decide) (by decide) (by decide)
     (by decide) (by decide),
   C5_filter_cursor.2.1 ⟨["/b/a.jpg"], 0, none, ["/b/a.jpg"], "/T"⟩
     ⟨["f", "1", "t"], [true], [true], []⟩ "f" ⟨["1", "t"], [true], [true], []⟩ "1"
     ⟨["t"], [true], [true], []⟩ [0] ⟨["t"], [true], [true], []⟩ "t" ⟨[], [true], [true], []⟩
     (⟨["/b/a.jpg"], 0, none, ["/T/a.jpg"], "/T"⟩, ⟨[], [], [], []⟩,
      [Ev.copyEv "/b/a.jpg" "/T/a.jpg" true, Ev.delEv "/b/a.jpg" true])
     rfl (by decide) (by decide) (by decide) (by decide) (by decide) (by decide)
     (by decide) (by decide) (by decide),
   C5_filter_cursor.2.2 ⟨["/b/a.jpg", "/b/c.mp4", "/b/d.jpg"], 0, none,
       ["/b/a.jpg", "/b/c.mp4", "/b/d.jpg"], "/T"⟩
     ⟨["f", "1", "x"], [], [], []⟩ "f" ⟨["1", "x"], [], [], []⟩ "1"
     ⟨["x"], [], [], []⟩ [0, 2] ⟨["x"], [], [], []⟩ "x" ⟨[], [], [], []⟩
     rfl (by decide) (by decide) (by decide) (by decide) (by decide) (by decide)
     (by decide) (by decide) (by decide)⟩

/-! ## Claim C8: quitting from the Reviewing prompt -/

/-- C8: issuing `q` at the Reviewing prompt terminates the session at once:
the whole remaining run consists of exactly the partial-progress report
(`Processed i of n`, i.e. `i` files processed and `n - i` unprocessed), the
loop state - queue and filesystem included - is returned unchanged, and no
copy or delete event is emitted from the quit on (lib.rs:1276-1284). -/
theorem C8_quit_immediate (st : St) (env : Env) (line : String) (env1 : Env)
    (fuel : Nat) (hact : st.allAction = none) (hi : st.i < st.files.length)
    (hpop : popInput env = some (line, env1)) (hq : parseCmd line = 'q') :
    runAux (fuel + 1) st env =
      (.quit st.i st.files.length, st, [Ev.quitReport st.i st.files.length]) := by
  have hstep : syncStep st env =
      .halt (.quit st.i st.files.length) [Ev.quitReport st.i st.files.length] := by
    rw [syncStep_eq st env line env1 hact hi hpop, hq]
    rfl
  unfold runAux
  rw [hstep]

/-- Witness for C8: quitting with the cursor at 2 of a 5-element queue
reports exactly 2 processed (hence 3 unprocessed) and mutates nothing. -/
theorem C8_witness :
    popInput ⟨["q"], [], [], []⟩ = some ("q", ⟨[], [], [], []⟩) ∧
    parseCmd "q" = 'q' ∧
    runAux 9 ⟨["/a", "/b", "/c", "/d", "/e"], 2, none, [], "/T"⟩ ⟨["q"], [], [], []⟩ =
      (.quit 2 5, ⟨["/a", "/b", "/c", "/d", "/e"], 2, none, [], "/T"⟩,
       [Ev.quitReport 2 5]) :=
  ⟨rfl, rfl,
   C8_quit_immediate ⟨["/a", "/b", "/c", "/d", "/e"], 2, none, [], "/T"⟩
     ⟨["q"], [], [], []⟩ "q" ⟨[], [], [], []⟩ 8 rfl (by decide) rfl rfl⟩

/-! ## Claim C9: is the missing queue immutable in length once built? -/

/-- C9 counterexample: the claim says that from the moment reconciliation
returns the missing list no element is ever removed and the length never
changes; but the session's pre-loop filter (`retain`, lib.rs:714-773) - part
of the very lines the claim covers - removes elements: a two-element missing
list drops to one element under the photos-only filter. -/
theorem C9_ce :
    (find_files_not_in_immich (fun _ => none) [] ["/b/a.jpg", "/b/c.mp4"]).length = 2 ∧
    (preFilter "1" ""
      (find_files_not_in_immich (fun _ => none) [] ["/b/a.jpg", "/b/c.mp4"])).length
      = 1 := by decide

/-- C9 (amended): once the interactive review loop starts - after the
optional pre-filter - the queue really is immutable: no step of the session
ever changes the `files` list, so its length is constant from loop entry to
session end, for every input and oracle stream. -/
theorem C9_loop_queue_immutable (fuel : Nat) (st : St) (env : Env) :
    (runAux fuel st env).2.1.files = st.files ∧
    (runAux fuel st env).2.1.files.length = st.files.length :=
  ⟨runAux_files fuel st env, by rw [runAux_files fuel st env]⟩

/-! ## Claim C10: command parsing at the Reviewing prompt -/

/-- C10: the command is the first character of the trimmed input line -
`"trash"` acts as `'t'` and drives the very same step as input `"t"` - while
an empty or whitespace-only line parses to `'?'`, which falls into the
invalid-command branch: a warning, no other event, no state change, cursor
still on the current file (lib.rs:868-871, 1303-1310). -/
theorem C10_first_char_command :
    parseCmd "trash" = 't' ∧ parseCmd "" = '?' ∧ parseCmd "   " = '?' ∧
    (∀ (st : St) (env : Env) (line : String) (env1 : Env),
      st.allAction = none → st.i < st.files.length →
      popInput env = some (line, env1) → strTrim line = "" →
      syncStep st env = .cont st env1 [Ev.warnEv]) ∧
    (∀ (st : St) (env : Env) (rest : List String),
      st.allAction = none → st.i < st.files.length → env.inputs = "trash" :: rest →
      syncStep st env = syncStep st { env with inputs := "t" :: rest }) := by
  refine ⟨rfl, rfl, rfl, ?_, ?_⟩
  · intro st env line env1 hact hi hpop htrim
    have hq : parseCmd line = '?' := by
      unfold parseCmd
      rw [htrim]
      rfl
    rw [syncStep_eq st env line env1 hact hi hpop, hq]
    rfl
  · intro st env rest hact hi henv
    have hpop1 : popInput env = some ("trash", { env with inputs := rest }) := by
      unfold popInput
      rw [henv]
    have hpop2 : popInput { env with inputs := "t" :: rest } =
        some ("t", { env with inputs := rest }) := rfl
    rw [syncStep_eq st env "trash" { env with inputs := rest } hact hi hpop1,
      syncStep_eq st { env with inputs := "t" :: rest } "t"
        { env with inputs := rest } hact hi hpop2]
    rfl

/-- Witness for C10: a whitespace-only line at a concrete state warns and
repeats; input `"trash"` steps exactly as input `"t"`. -/
theorem C10_witness :
    strTrim " " = "" ∧
    syncStep ⟨["/b/a.jpg"], 0, none, ["/b/a.jpg"], "/T"⟩ ⟨[" "], [], [], []⟩ =
      .cont ⟨["/b/a.jpg"], 0, none, ["/b/a.jpg"], "/T"⟩ ⟨[], [], [], []⟩
        [Ev.warnEv] ∧
    syncStep ⟨["/b/a.jpg"], 0, none, ["/b/a.jpg"], "/T"⟩ ⟨["trash"], [], [], []⟩ =
      syncStep ⟨["/b/a.jpg"], 0, none, ["/b/a.jpg"], "/T"⟩ ⟨["t"], [], [], []⟩ :=
  ⟨rfl,
   C10_first_char_command.2.2.2.1 ⟨["/b/a.jpg"], 0, none, ["/b/a.jpg"], "/T"⟩
     ⟨[" "], [], [], []⟩ " " ⟨[], [], [], []⟩ rfl (by decide) rfl rfl,
   C10_first_char_command.2.2.2.2 ⟨["/b/a.jpg"], 0, none, ["/b/a.jpg"], "/T"⟩
     ⟨["trash"], [], [], []⟩ [] rfl (by decide) rfl⟩

end BackupPhotos

